import Mathlib

/-!
Verification development for the skillsight edge worker
(worker/src/index.ts): a shallow embedding of its request-handling
core, together with proofs about the embedded definitions.

Modelling conventions, used throughout:
* JavaScript strings are Lean `String`; string primitives that do not
  reduce well in the kernel (trim, toLowerCase, split, includes) are
  modelled over the character list `String.data`.
* JavaScript numbers appearing as integer data are `Int` (or `Nat`
  where the source only ever produces non-negative values); `x ?? 0`
  on a nullable number is `Option.getD 0`.
* `await`-based fallible pipelines are explicit `Except String`
  computations: a thrown `Error(msg)` is `.error msg`.
* `Array.prototype.sort` (required to be stable since ES2019) is
  modelled by the stable `List.insertionSort` over the relation
  "comparator result <= 0".
-/

deriving instance DecidableEq for Except

namespace Skillsight

/-! ### JavaScript string primitives -/

/-- `String.prototype.toLowerCase`, modelled characterwise. -/
def jsToLower (s : String) : String :=
  String.mk (s.data.map Char.toLower)

/-- `String.prototype.trim`: drop whitespace from both ends. -/
def jsTrim (s : String) : String :=
  String.mk (((s.data.dropWhile Char.isWhitespace).reverse.dropWhile
    Char.isWhitespace).reverse)

/-- `String.prototype.length`, counted in code points (the worker only
    compares lengths of queries, where this matches the JS count on the
    inputs of interest). -/
def jsLength (s : String) : Nat := s.data.length

/-- `haystack.includes(needle)`: substring containment. -/
def jsIncludes (haystack needle : String) : Bool :=
  decide (List.IsInfix needle.data haystack.data)

def splitCharAux (sep : Char) : List Char → List Char → List (List Char)
  | [], acc => [acc.reverse]
  | c :: rest, acc =>
      if c = sep then acc.reverse :: splitCharAux sep rest []
      else splitCharAux sep rest (c :: acc)

/-- `String.prototype.split(sep)` for a one-character separator.
    As in JS, `"".split("/") = [""]` and empty fields are kept. -/
def jsSplit (s : String) (sep : Char) : List String :=
  (splitCharAux sep s.data []).map String.mk

def isDigitChar (c : Char) : Bool := '0' ≤ c && c ≤ '9'

def digitVal (c : Char) : Nat := c.toNat - '0'.toNat

def natOfDigits (ds : List Char) : Nat :=
  ds.foldl (fun acc c => 10 * acc + digitVal c) 0

def isLeapYear (y : Nat) : Bool :=
  (y % 4 == 0 && y % 100 != 0) || y % 400 == 0

def daysInMonth (y m : Nat) : Nat :=
  if m == 2 then (if isLeapYear y then 29 else 28)
  else if m == 4 || m == 6 || m == 9 || m == 11 then 30
  else 31

/-- `isDateString` from the source: the regex `^\d{4}-\d{2}-\d{2}$`
    followed by the `Date.UTC` round-trip check.  The round trip fails
    exactly when the calendar components roll over, and additionally for
    years 0-99, which `Date.UTC` maps to 1900-1999. -/
def isDateString (s : String) : Bool :=
  match s.data with
  | [y1, y2, y3, y4, h1, c1, c2, h2, e1, e2] =>
      isDigitChar y1 && isDigitChar y2 && isDigitChar y3 && isDigitChar y4 &&
      (h1 == '-') && (h2 == '-') &&
      isDigitChar c1 && isDigitChar c2 && isDigitChar e1 && isDigitChar e2 &&
      (let y := natOfDigits [y1, y2, y3, y4]
       let m := natOfDigits [c1, c2]
       let d := natOfDigits [e1, e2]
       decide (100 ≤ y) && decide (1 ≤ m) && decide (m ≤ 12) &&
       decide (1 ≤ d) && decide (d ≤ daysInMonth y m))
  | _ => false

/-! ### RateLimiter (worker/src/index.ts, enforceRateLimit and helpers)

The rate-limit map is per client id; the embedding models the single
map slot belonging to one client.  The opportunistic sweep only deletes
entries whose window has fully elapsed, and `enforceRateLimit` treats a
deleted entry and a fully elapsed entry identically (both start a fresh
window), so the sweep is invisible to the per-client semantics modelled
here. -/

def RATE_LIMIT_WINDOW_MS : Int := 60000

def RATE_LIMIT_MAX_REQUESTS : Nat := 60

structure RateLimitState where
  windowStartMs : Int
  count : Nat
deriving DecidableEq

structure RateHeaders where
  limit : Nat
  remaining : Nat
  resetEpochSeconds : Int
deriving DecidableEq

inductive RateOutcome where
  | allow (headers : RateHeaders)
  | block (status : Nat) (retryAfterSeconds : Int) (headers : RateHeaders)
deriving DecidableEq

/-- `Math.ceil(a / 1000)` for an integer `a` (Lean `/` on `Int` is
    floor division, so the ceiling is the negated floor of the
    negation). -/
def ceilDiv1000 (a : Int) : Int := -((-a) / 1000)

/-- `rateLimitHeaders(limit, remaining, reset)`; the source clamps the
    remaining count with `Math.max(0, remaining)`. -/
def rateLimitHeaders (limit : Nat) (remaining : Int) (reset : Int) : RateHeaders :=
  { limit := limit, remaining := (max 0 remaining).toNat, resetEpochSeconds := reset }

/-- The fresh-window branch of `enforceRateLimit`: store
    `{windowStartMs: now, count: 1}` and allow. -/
def freshWindowResult (nowMs : Int) : RateOutcome × Option RateLimitState :=
  let next : RateLimitState := { windowStartMs := nowMs, count := 1 }
  let reset := ceilDiv1000 (next.windowStartMs + RATE_LIMIT_WINDOW_MS)
  (.allow (rateLimitHeaders RATE_LIMIT_MAX_REQUESTS
      ((RATE_LIMIT_MAX_REQUESTS : Int) - (next.count : Int)) reset),
    some next)

/-- `enforceRateLimit` for one client: `current` is the entry stored in
    the rate-limit map for that client (None if absent). -/
def enforceRateLimit (nowMs : Int) (current : Option RateLimitState) :
    RateOutcome × Option RateLimitState :=
  match current with
  | none => freshWindowResult nowMs
  | some cur =>
      if nowMs - cur.windowStartMs ≥ RATE_LIMIT_WINDOW_MS then
        freshWindowResult nowMs
      else if cur.count ≥ RATE_LIMIT_MAX_REQUESTS then
        let retryAfterSeconds :=
          max 1 (ceilDiv1000 (cur.windowStartMs + RATE_LIMIT_WINDOW_MS - nowMs))
        let reset := ceilDiv1000 (cur.windowStartMs + RATE_LIMIT_WINDOW_MS)
        (.block 429 retryAfterSeconds
            (rateLimitHeaders RATE_LIMIT_MAX_REQUESTS 0 reset),
          some cur)
      else
        let next : RateLimitState :=
          { windowStartMs := cur.windowStartMs, count := cur.count + 1 }
        let reset := ceilDiv1000 (cur.windowStartMs + RATE_LIMIT_WINDOW_MS)
        (.allow (rateLimitHeaders RATE_LIMIT_MAX_REQUESTS
            ((RATE_LIMIT_MAX_REQUESTS : Int) - (next.count : Int)) reset),
          some next)

/-- Run one client through a list of request times, returning the final
    map slot and the number of admitted requests. -/
def runRateRequests : Option RateLimitState → List Int → Option RateLimitState × Nat
  | st, [] => (st, 0)
  | st, t :: ts =>
      let step := enforceRateLimit t st
      let rest := runRateRequests step.2 ts
      (rest.1, (match step.1 with | .allow _ => 1 | .block _ _ _ => 0) + rest.2)

/-- Invariant for the admission bound: starting from a window that
    began at `t0` with `c` admitted so far, at most `60 - c` further
    requests inside that window are admitted. -/
theorem runRateRequests_le (t0 : Int) :
    ∀ (ts : List Int) (c : Nat), c ≤ 60 →
      (∀ t ∈ ts, t < t0 + 60000) →
      (runRateRequests (some ⟨t0, c⟩) ts).2 ≤ 60 - c := by
  intro ts
  induction ts with
  | nil => intro c _ _; simp [runRateRequests]
  | cons t ts ih =>
      intro c hc hbound
      have htlt : t < t0 + 60000 := hbound t (List.mem_cons_self ..)
      have hbound' : ∀ u ∈ ts, u < t0 + 60000 :=
        fun u hu => hbound u (List.mem_cons_of_mem _ hu)
      have hwin : ¬ (t - t0 ≥ RATE_LIMIT_WINDOW_MS) := by
        simp only [RATE_LIMIT_WINDOW_MS]; omega
      by_cases h60 : 60 ≤ c
      · have hc60 : c = 60 := le_antisymm hc h60
        subst hc60
        simp only [runRateRequests, enforceRateLimit, RATE_LIMIT_MAX_REQUESTS,
          hwin, if_false, if_pos (le_refl 60)]
        simpa using ih 60 le_rfl hbound'
      · have hlt : c < 60 := lt_of_not_le h60
        simp only [runRateRequests, enforceRateLimit, RATE_LIMIT_MAX_REQUESTS,
          hwin, if_false, if_neg h60]
        have := ih (c + 1) (by omega) hbound'
        omega

/-- C1: per client, a request with no stored entry or with a fully
    elapsed window starts a fresh window with count 1 and is allowed; a
    request inside the window with count below 60 increments the count
    and is allowed; otherwise the request is blocked with status 429 and
    `Retry-After = max(1, ceil((window_start + 60000 - now)/1000))`,
    which is at least 1; and any request trace confined to one 60000 ms
    window admits at most 60 requests. -/
theorem rateLimiter_window_spec :
    (∀ nowMs : Int,
        enforceRateLimit nowMs none =
          (.allow ⟨60, 59, ceilDiv1000 (nowMs + 60000)⟩, some ⟨nowMs, 1⟩))
    ∧ (∀ (nowMs : Int) (s : RateLimitState), nowMs - s.windowStartMs ≥ 60000 →
        enforceRateLimit nowMs (some s) =
          (.allow ⟨60, 59, ceilDiv1000 (nowMs + 60000)⟩, some ⟨nowMs, 1⟩))
    ∧ (∀ (nowMs : Int) (s : RateLimitState), nowMs - s.windowStartMs < 60000 →
        s.count < 60 →
        enforceRateLimit nowMs (some s) =
          (.allow ⟨60, 59 - s.count, ceilDiv1000 (s.windowStartMs + 60000)⟩,
            some ⟨s.windowStartMs, s.count + 1⟩))
    ∧ (∀ (nowMs : Int) (s : RateLimitState), nowMs - s.windowStartMs < 60000 →
        60 ≤ s.count →
        enforceRateLimit nowMs (some s) =
          (.block 429 (max 1 (ceilDiv1000 (s.windowStartMs + 60000 - nowMs)))
              ⟨60, 0, ceilDiv1000 (s.windowStartMs + 60000)⟩,
            some s)
        ∧ 1 ≤ max 1 (ceilDiv1000 (s.windowStartMs + 60000 - nowMs)))
    ∧ (∀ (t0 : Int) (ts : List Int), (∀ t ∈ ts, t < t0 + 60000) →
        (runRateRequests none (t0 :: ts)).2 ≤ 60) := by
  refine ⟨?_, ?_, ?_, ?_, ?_⟩
  · intro nowMs
    simp [enforceRateLimit, freshWindowResult, RATE_LIMIT_WINDOW_MS,
      RATE_LIMIT_MAX_REQUESTS, rateLimitHeaders]
  · intro nowMs s h
    have h1 : nowMs - s.windowStartMs ≥ (60000 : Int) := h
    simp only [enforceRateLimit, RATE_LIMIT_WINDOW_MS, RATE_LIMIT_MAX_REQUESTS,
      freshWindowResult, rateLimitHeaders, if_pos h1]
    simp
  · intro nowMs s hwin hcount
    have h1 : ¬ (nowMs - s.windowStartMs ≥ (60000 : Int)) := by omega
    have h2 : ¬ (s.count ≥ 60) := by omega
    simp only [enforceRateLimit, RATE_LIMIT_WINDOW_MS, RATE_LIMIT_MAX_REQUESTS,
      rateLimitHeaders, if_neg h1, if_neg h2, Prod.mk.injEq,
      RateOutcome.allow.injEq, RateHeaders.mk.injEq]
    refine ⟨⟨trivial, ?_, trivial⟩, trivial⟩
    omega
  · intro nowMs s hwin hcount
    have h1 : ¬ (nowMs - s.windowStartMs ≥ (60000 : Int)) := by omega
    have h2 : s.count ≥ 60 := hcount
    refine ⟨?_, le_max_left 1 _⟩
    simp only [enforceRateLimit, RATE_LIMIT_WINDOW_MS, RATE_LIMIT_MAX_REQUESTS,
      rateLimitHeaders, if_neg h1, if_pos h2, Prod.mk.injEq,
      RateOutcome.block.injEq, RateHeaders.mk.injEq]
    refine ⟨⟨trivial, trivial, trivial, ?_, trivial⟩, trivial⟩
    omega
  · intro t0 ts hbound
    have hfirst : enforceRateLimit t0 none = freshWindowResult t0 := rfl
    simp only [runRateRequests, hfirst, freshWindowResult]
    have := runRateRequests_le t0 ts 1 (by omega) hbound
    omega

/-- Closed instance of C1: with a stored window that began at 100000 ms
    holding 60 requests, a request at 100500 ms is blocked with
    `Retry-After` 60 seconds. -/
theorem rateLimiter_window_spec_witness :
    (100500 : Int) - 100000 < 60000 ∧ (60 : Nat) ≤ 60 ∧
    enforceRateLimit 100500 (some ⟨100000, 60⟩) =
      (.block 429 60 ⟨60, 0, 160⟩, some ⟨100000, 60⟩) := by
  refine ⟨by decide, le_rfl, ?_⟩
  have h := rateLimiter_window_spec.2.2.2.1 100500 ⟨100000, 60⟩ (by decide) (by decide)
  rw [h.1]
  decide

/-! ### Router method dispatch (worker/src/index.ts, fetch lines 566-572)

The first two statements of the fetch handler: an OPTIONS request gets
a 204 CORS-preflight response, any other non-GET method gets 405, and a
GET request continues into the router (modelled as `none`). -/

def methodDispatch (method : String) : Option Nat :=
  if method = "OPTIONS" then some 204
  else if method ≠ "GET" then some 405
  else none

/-- C9 counterexample: an OPTIONS request has a method other than GET,
    yet the router responds 204, not 405. -/
theorem methodDispatch_options_not_405 :
    "OPTIONS" ≠ "GET" ∧ methodDispatch "OPTIONS" = some 204 ∧
      methodDispatch "OPTIONS" ≠ some 405 := by
  refine ⟨by decide, rfl, by decide⟩

/-- C9 (amended): every request whose method is neither GET nor OPTIONS
    receives status 405; an OPTIONS request receives the 204 CORS
    preflight response; a GET request proceeds into the router. -/
theorem methodDispatch_non_get :
    (∀ m : String, m ≠ "GET" → m ≠ "OPTIONS" → methodDispatch m = some 405)
    ∧ methodDispatch "OPTIONS" = some 204
    ∧ methodDispatch "GET" = none := by
  refine ⟨?_, rfl, by decide⟩
  intro m hget hopts
  simp [methodDispatch, hget, hopts]

/-- Closed instance of C9 (amended): a POST request is answered 405. -/
theorem methodDispatch_non_get_witness :
    ("POST" : String) ≠ "GET" ∧ ("POST" : String) ≠ "OPTIONS" ∧
      methodDispatch "POST" = some 405 := by
  refine ⟨by decide, by decide, ?_⟩
  exact methodDispatch_non_get.1 "POST" (by decide) (by decide)

/-! ### Document shapes (worker/src/index.ts, type declarations)

TypeScript casts `JSON.parse(text) as T` without validating, so any
field can be missing at runtime; fields that the worker reads behind
optional access or `??` are therefore `Option`s here. -/

structure SearchIndexItem where
  id : String
  skill_id : String
  owner : String
  repo : String
  name : String
  canonical_url : String
  total_installs : Option Int
  weekly_installs : Option Int
  rank_at_fetch : Option Int
deriving DecidableEq

structure SearchIndexDocument where
  snapshot_date : Option String
  items : List SearchIndexItem
deriving DecidableEq

structure PlatformInstalls where
  entries : List (String × Option Int)
deriving DecidableEq

structure SkillListItem where
  id : String
  skill_id : String
  owner : String
  repo : String
  name : String
  canonical_url : String
  total_installs : Option Int
  weekly_installs : Option Int
  rank_at_fetch : Option Int
  description : Option String
  platform_installs : Option PlatformInstalls
deriving DecidableEq

structure LatestCounts where
  total_skills : Option Nat
  total_repos : Option Nat
deriving DecidableEq

structure LatestManifest where
  snapshot_date : Option String
  page_size : Option Nat
  counts : Option LatestCounts
deriving DecidableEq

structure SnapshotLatestManifest where
  date : Option String
deriving DecidableEq

structure SnapshotStatsSummary where
  total_skills : Option Nat
  total_repos : Option Nat
  snapshot_date : Option String
deriving DecidableEq

structure SnapshotSkillsManifest where
  snapshot_date : Option String
  total_skills : Option Nat
  page_size : Option Nat
  page_count : Option Nat
deriving DecidableEq

structure SnapshotSkillPageItem where
  source : String
  skillId : String
  name : String
  installs : Option Int
deriving DecidableEq

structure SnapshotSkillLookup where
  page : Nat
  index : Nat
deriving DecidableEq

/-- `skill_lookup.json`: `entries` is a JS object used as a map, here
    an association list in insertion order; it is optional because a
    parsed document may lack the field (the worker reads it behind
    `?.entries` in the builders and bare in the search fallback). -/
structure SnapshotSkillLookupDocument where
  snapshot_date : Option String
  total_entries : Option Nat
  entries : Option (List (String × SnapshotSkillLookup))
deriving DecidableEq

/-! ### CacheTier load contract over classified storage

`loadJsonObjectWithCache` (lines 311-357) first obtains the raw text of
an object (serving it through the edge response cache) and then parses
it.  For an immutable store, the cache layers never change the value
returned, so the typed loads used by the resolver and the synthesizers
are modelled over a classification of the stored text: missing object,
present-but-empty text (JS `!text` treats it as absent), text that
fails `JSON.parse` (throws `Invalid JSON in <key>`), or a parsed value.
The cache layers themselves are modelled explicitly further below, at
the text level. -/

inductive Stored (α : Type) where
  | absent
  | empty
  | malformed
  | val (v : α)
deriving DecidableEq

/-- `loadJsonObjectWithCache` over the classification of the stored
    text: `null`/empty text gives null, unparseable text throws the
    typed error carrying the key, a parsed document is returned. -/
def loadObj {α : Type} (key : String) : Stored α → Except String (Option α)
  | .absent => .ok none
  | .empty => .ok none
  | .malformed => .error ("Invalid JSON in " ++ key)
  | .val v => .ok (some v)

/-- The durable object storage contents relevant to the worker, one
    typed field per artifact family (`Env.SKILLSIGHT_DATA`; a missing
    R2 binding behaves as an all-absent store). -/
structure Store where
  latestManifest : Stored LatestManifest
  latestSnapshot : Stored SnapshotLatestManifest
  statsSummary : String → Stored SnapshotStatsSummary
  skillsManifest : String → Stored SnapshotSkillsManifest
  skillsPage : String → Nat → Stored (List SnapshotSkillPageItem)
  skillLookup : String → Stored SnapshotSkillLookupDocument
  searchIndex : String → Stored SearchIndexDocument

/-! ### Object keys (worker/src/index.ts, lines 107-128) -/

def latestManifestKey : String := "data/v1/latest.json"

def latestSnapshotKey : String := "snapshots/latest.json"

def searchIndexKey (d : String) : String :=
  "data/v1/snapshots/" ++ d ++ "/search/slim-index.json"

def snapshotStatsSummaryKey (d : String) : String :=
  "snapshots/" ++ d ++ "/stats_summary.json"

def snapshotSkillsManifestKey (d : String) : String :=
  "snapshots/" ++ d ++ "/skills_manifest.json"

/-- `String(page).padStart(4, "0")`. -/
def padStart4 (s : String) : String :=
  if s.data.length ≥ 4 then s
  else String.mk (List.replicate (4 - s.data.length) '0' ++ s.data)

def snapshotSkillsPageKey (d : String) (page : Nat) : String :=
  "snapshots/" ++ d ++ "/skills_pages/page-" ++ padStart4 (toString page) ++ ".json"

def snapshotSkillLookupKey (d : String) : String :=
  "snapshots/" ++ d ++ "/skill_lookup.json"

/-! ### ManifestResolver (worker/src/index.ts, loadLatestManifest) -/

/-- JS falsiness of a string that may be `undefined`: true for a
    missing value and for the empty string. -/
def strFalsy : Option String → Bool
  | none => true
  | some s => s == ""

/-- `loadLatestManifest` (lines 506-540), modelled on a cold in-process
    manifest cache (the 60 s cache replays a previous result of this
    same computation).  Canonical manifest first; when its text is
    missing or empty, fall to the legacy pointer, validating the date
    and opportunistically enriching from the per-snapshot skills
    manifest. -/
def loadLatestManifest (st : Store) : Except String (Option LatestManifest) :=
  match st.latestManifest with
  | .malformed => .error ("Invalid JSON in " ++ latestManifestKey)
  | .val parsed =>
      if strFalsy parsed.snapshot_date ∨ ¬ isDateString (parsed.snapshot_date.getD "") then
        .error "latest.json missing valid snapshot_date"
      else .ok (some parsed)
  | _ =>
      match st.latestSnapshot with
      | .malformed => .error ("Invalid JSON in " ++ latestSnapshotKey)
      | .val parsed =>
          if strFalsy parsed.date ∨ ¬ isDateString (parsed.date.getD "") then
            .error "snapshots/latest.json missing valid date"
          else
            let d := parsed.date.getD ""
            match loadObj (snapshotSkillsManifestKey d) (st.skillsManifest d) with
            | .error e => .error e
            | .ok none =>
                .ok (some { snapshot_date := some d, page_size := none, counts := none })
            | .ok (some sm) =>
                .ok (some
                  { snapshot_date := some d
                    page_size := sm.page_size
                    counts := some { total_skills := sm.total_skills, total_repos := none } })
      | _ => .ok none

/-- Snapshot-date resolution shared by the rate-limited endpoints: an
    explicit `snapshot_date` query parameter is format-checked (400 on
    failure), otherwise the resolver is consulted and a null result is
    mapped to a 503 with the endpoint-specific message. -/
def resolveSnapshotDate (unavailableMsg : String) (snapshotParam : Option String)
    (latest : Except String (Option LatestManifest)) :
    Except String (Sum (Nat × String) String) :=
  if strFalsy snapshotParam then
    match latest with
    | .error e => .error e
    | .ok none => .ok (.inl (503, unavailableMsg))
    | .ok (some m) => .ok (.inr (m.snapshot_date.getD ""))
  else
    if ¬ isDateString (snapshotParam.getD "") then
      .ok (.inl (400, "Invalid snapshot_date format"))
    else .ok (.inr (snapshotParam.getD ""))

def statsSummaryResolve (p : Option String) (l : Except String (Option LatestManifest)) :=
  resolveSnapshotDate "Summary unavailable" p l

def skillsListResolve (p : Option String) (l : Except String (Option LatestManifest)) :=
  resolveSnapshotDate "Leaderboard unavailable" p l

def skillDetailResolve (p : Option String) (l : Except String (Option LatestManifest)) :=
  resolveSnapshotDate "Skill unavailable" p l

def metricsResolve (p : Option String) (l : Except String (Option LatestManifest)) :=
  resolveSnapshotDate "Metrics unavailable" p l

def searchResolve (p : Option String) (l : Except String (Option LatestManifest)) :=
  resolveSnapshotDate "Search index unavailable" p l

def storeC3 : Store :=
  { latestManifest := .empty
    latestSnapshot := .absent
    statsSummary := fun _ => .absent
    skillsManifest := fun _ => .absent
    skillsPage := fun _ _ => .absent
    skillLookup := fun _ => .absent
    searchIndex := fun _ => .absent }

/-- C3 counterexample: with the canonical manifest object present in
    storage but holding empty text, and no legacy pointer, the resolver
    still returns null, so "null only if neither object exists" fails:
    the worker treats an existing empty object like a missing one. -/
theorem loadLatestManifest_null_despite_present :
    loadLatestManifest storeC3 = .ok none ∧ storeC3.latestManifest ≠ .absent := by
  exact ⟨rfl, by decide⟩

/-- C3 (amended): the resolver returns null exactly when each of the
    canonical manifest and the legacy pointer is either missing or an
    empty-text object; a present canonical manifest with a falsy or
    malformed `snapshot_date` throws rather than falling back; and every
    rate-limited endpoint maps a null resolver result (with no explicit
    snapshot parameter) to a 503 response with its message, never 404. -/
theorem loadLatestManifest_null_iff :
    (∀ st : Store,
        loadLatestManifest st = .ok none ↔
          ((st.latestManifest = .absent ∨ st.latestManifest = .empty) ∧
            (st.latestSnapshot = .absent ∨ st.latestSnapshot = .empty)))
    ∧ (∀ (st : Store) (p : LatestManifest), st.latestManifest = .val p →
        (strFalsy p.snapshot_date ∨ ¬ isDateString (p.snapshot_date.getD "")) →
        loadLatestManifest st = .error "latest.json missing valid snapshot_date")
    ∧ (∀ st : Store, loadLatestManifest st = .ok none →
        ∀ p : Option String, strFalsy p = true →
          statsSummaryResolve p (loadLatestManifest st) =
              .ok (.inl (503, "Summary unavailable"))
          ∧ skillsListResolve p (loadLatestManifest st) =
              .ok (.inl (503, "Leaderboard unavailable"))
          ∧ skillDetailResolve p (loadLatestManifest st) =
              .ok (.inl (503, "Skill unavailable"))
          ∧ metricsResolve p (loadLatestManifest st) =
              .ok (.inl (503, "Metrics unavailable"))
          ∧ searchResolve p (loadLatestManifest st) =
              .ok (.inl (503, "Search index unavailable"))) := by
  refine ⟨?_, ?_, ?_⟩
  · intro st
    rcases h1 : st.latestManifest with _ | _ | _ | p <;>
      rcases h2 : st.latestSnapshot with _ | _ | _ | q <;>
        simp only [loadLatestManifest, h1, h2] <;>
          (try simp) <;>
            (split
             · simp
             · first | simp | (split <;> simp))
  · intro st p h1 hbad
    simp only [loadLatestManifest, h1]
    rw [if_pos hbad]
  · intro st h p hp
    refine ⟨?_, ?_, ?_, ?_, ?_⟩ <;>
      simp [statsSummaryResolve, skillsListResolve, skillDetailResolve,
        metricsResolve, searchResolve, resolveSnapshotDate, hp, h]

def storeAllAbsent : Store :=
  { latestManifest := .absent
    latestSnapshot := .absent
    statsSummary := fun _ => .absent
    skillsManifest := fun _ => .absent
    skillsPage := fun _ _ => .absent
    skillLookup := fun _ => .absent
    searchIndex := fun _ => .absent }

/-- Closed instance of C3 (amended): with nothing in storage the
    resolver returns null and the search endpoint resolution yields
    503 "Search index unavailable". -/
theorem loadLatestManifest_null_iff_witness :
    loadLatestManifest storeAllAbsent = .ok none ∧
    searchResolve none (loadLatestManifest storeAllAbsent) =
      .ok (.inl (503, "Search index unavailable")) := by
  have h : loadLatestManifest storeAllAbsent = .ok none :=
    (loadLatestManifest_null_iff.1 storeAllAbsent).mpr ⟨Or.inl rfl, Or.inl rfl⟩
  exact ⟨h, (loadLatestManifest_null_iff.2.2 storeAllAbsent h none rfl).2.2.2.2⟩

/-! ### FallbackSynthesizer (worker/src/index.ts, lines 214-237 and 428-504) -/

/-- `parseSource`: split a "source" string on "/" into owner and the
    rest; a falsy owner or an empty rest degrades to using the whole
    source for both parts. -/
def parseSource (source : String) : String × String :=
  match jsSplit source '/' with
  | owner :: rest =>
      if owner = "" ∨ rest = [] then (source, source)
      else (owner, String.intercalate "/" rest)
  | [] => (source, source)

/-- `snapshotItemToSkillListItem(item, rank)`. -/
def snapshotItemToSkillListItem (item : SnapshotSkillPageItem) (rank : Int) :
    SkillListItem :=
  let or := parseSource item.source
  { id := item.source ++ "/" ++ item.skillId
    skill_id := item.skillId
    owner := or.1
    repo := or.2
    name := item.name
    canonical_url := "https://skills.sh/" ++ item.source ++ "/" ++ item.skillId
    total_installs := item.installs
    weekly_installs := none
    rank_at_fetch := some rank
    description := none
    platform_installs := none }

/-- The record synthesized by `buildSnapshotSkillRecord` (lines
    449-477); the fields the compact layout cannot supply are fixed
    nulls/constants, exactly as in the source object literal. -/
structure SkillRecord where
  id : String
  skill_id : String
  owner : String
  repo : String
  canonical_url : String
  total_installs : Option Int
  weekly_installs : Option Int
  weekly_installs_raw : Option Int
  platform_installs : Option PlatformInstalls
  name : String
  description : Option String
  first_seen_date : Option String
  github_url : String
  og_image_url : Option String
  run_id : String
  fetched_at : String
  discovery_source : String
  source_endpoint : String
  discovery_pass : Nat
  rank_at_fetch : Int
  http_status : Nat
  parser_version : String
  raw_html_hash : Option String
  skill_md_content : Option String
  skill_md_frontmatter : Option String
  install_command : Option String
  categories : List String
deriving DecidableEq

/-- `buildSnapshotSkillRecord(env, snapshotDate, skillId, request)`:
    split the compound id, resolve the lookup entry, fetch the page,
    fetch the row, read the page size from the per-snapshot manifest
    (default 200) and synthesize the record. -/
def buildSnapshotSkillRecord (st : Store) (snapshotDate skillId : String) :
    Except String (Option SkillRecord) :=
  match jsSplit skillId '/' with
  | [owner, repo, leafSkillId] =>
      if owner = "" ∨ repo = "" ∨ leafSkillId = "" then .ok none
      else
        match loadObj (snapshotSkillLookupKey snapshotDate) (st.skillLookup snapshotDate) with
        | .error e => .error e
        | .ok lookupOpt =>
            match (lookupOpt.bind (·.entries)).bind (List.lookup skillId) with
            | none => .ok none
            | some entry =>
                match loadObj (snapshotSkillsPageKey snapshotDate entry.page)
                    (st.skillsPage snapshotDate entry.page) with
                | .error e => .error e
                | .ok pageOpt =>
                    match pageOpt.bind (fun rows => rows[entry.index]?) with
                    | none => .ok none
                    | some raw =>
                        match loadObj (snapshotSkillsManifestKey snapshotDate)
                            (st.skillsManifest snapshotDate) with
                        | .error e => .error e
                        | .ok smOpt =>
                            let pageSize : Int := ((smOpt.bind (·.page_size)).getD 200 : Nat)
                            .ok (some
                              { id := skillId
                                skill_id := raw.skillId
                                owner := owner
                                repo := repo
                                canonical_url :=
                                  "https://skills.sh/" ++ owner ++ "/" ++ repo ++ "/" ++ leafSkillId
                                total_installs := raw.installs
                                weekly_installs := none
                                weekly_installs_raw := none
                                platform_installs := none
                                name := raw.name
                                description := none
                                first_seen_date := none
                                github_url := "https://github.com/" ++ owner ++ "/" ++ repo
                                og_image_url := none
                                run_id := "snapshot-" ++ snapshotDate
                                fetched_at := snapshotDate ++ "T00:00:00.000Z"
                                discovery_source := "leaderboard"
                                source_endpoint := "leaderboard"
                                discovery_pass := 1
                                rank_at_fetch :=
                                  ((entry.page : Int) - 1) * pageSize + (entry.index : Int) + 1
                                http_status := 200
                                parser_version := "snapshot-proxy"
                                raw_html_hash := none
                                skill_md_content := none
                                skill_md_frontmatter := none
                                install_command := none
                                categories := [] })
  | _ => .ok none

structure MetricsItem where
  id : String
  snapshot_date : String
  total_installs : Option Int
  weekly_installs : Option Int
  platform_installs : Option PlatformInstalls
deriving DecidableEq

structure MetricsResponse where
  id : String
  items : List MetricsItem
deriving DecidableEq

/-- `buildSnapshotMetricsResponse(env, snapshotDate, skillId, request)`
    (lines 480-504): same lookup path as the record builder, producing a
    single-point series. -/
def buildSnapshotMetricsResponse (st : Store) (snapshotDate skillId : String) :
    Except String (Option MetricsResponse) :=
  match loadObj (snapshotSkillLookupKey snapshotDate) (st.skillLookup snapshotDate) with
  | .error e => .error e
  | .ok lookupOpt =>
      match (lookupOpt.bind (·.entries)).bind (List.lookup skillId) with
      | none => .ok none
      | some entry =>
          match loadObj (snapshotSkillsPageKey snapshotDate entry.page)
              (st.skillsPage snapshotDate entry.page) with
          | .error e => .error e
          | .ok pageOpt =>
              match pageOpt.bind (fun rows => rows[entry.index]?) with
              | none => .ok none
              | some raw =>
                  .ok (some
                    { id := skillId
                      items := [
                        { id := skillId
                          snapshot_date := snapshotDate
                          total_installs := raw.installs
                          weekly_installs := none
                          platform_installs := none }] })

/-- The leaderboard-page synthesis branch of the artifact pass-through
    (lines 623-645): only the installs sort has a synthesis path; ranks
    are `(page-1)*page_size + index + 1` with the page size taken from
    the per-snapshot manifest (default 200). -/
structure LeaderboardPayload where
  snapshot_date : String
  sort : String
  page : Nat
  page_size : Nat
  total : Nat
  items : List SkillListItem
deriving DecidableEq

def synthesizeLeaderboardPage (st : Store) (snapshotDate sort : String) (page : Nat) :
    Except String (Option LeaderboardPayload) :=
  if sort = "installs" then
    match loadObj (snapshotSkillsPageKey snapshotDate page) (st.skillsPage snapshotDate page) with
    | .error e => .error e
    | .ok none => .ok none
    | .ok (some snapshotPage) =>
        match loadObj (snapshotSkillsManifestKey snapshotDate) (st.skillsManifest snapshotDate) with
        | .error e => .error e
        | .ok smOpt =>
            match loadObj (snapshotStatsSummaryKey snapshotDate) (st.statsSummary snapshotDate) with
            | .error e => .error e
            | .ok summaryOpt =>
                let pageSize := (smOpt.bind (·.page_size)).getD 200
                let items := snapshotPage.mapIdx (fun index item =>
                  snapshotItemToSkillListItem item
                    (((page : Int) - 1) * (pageSize : Int) + (index : Int) + 1))
                let total :=
                  match summaryOpt.bind (·.total_skills) with
                  | some t => t
                  | none =>
                      match smOpt.bind (·.total_skills) with
                      | some t => t
                      | none => items.length
                .ok (some
                  { snapshot_date := snapshotDate
                    sort := sort
                    page := page
                    page_size := pageSize
                    total := total
                    items := items })
  else .ok none

/-- C4: every synthesized skill record carries
    `rank_at_fetch = (page-1)*page_size + index + 1` for the lookup
    entry `(page, index)` that produced it, and every synthesized
    leaderboard item at local index `i` of page `p` carries global rank
    `(p-1)*page_size + i + 1`, with `page_size` taken from the
    per-snapshot manifest. -/
theorem synthesized_rank_formula :
    (∀ (st : Store) (d skillId : String) (rec : SkillRecord)
        (lkp : SnapshotSkillLookupDocument) (es : List (String × SnapshotSkillLookup))
        (entry : SnapshotSkillLookup) (sm : SnapshotSkillsManifest) (ps : Nat),
        st.skillLookup d = .val lkp →
        lkp.entries = some es →
        es.lookup skillId = some entry →
        st.skillsManifest d = .val sm →
        sm.page_size = some ps →
        buildSnapshotSkillRecord st d skillId = .ok (some rec) →
        rec.rank_at_fetch = ((entry.page : Int) - 1) * (ps : Int) + (entry.index : Int) + 1)
    ∧ (∀ (st : Store) (d s : String) (page : Nat) (pl : LeaderboardPayload)
        (sm : SnapshotSkillsManifest) (ps : Nat),
        st.skillsManifest d = .val sm →
        sm.page_size = some ps →
        synthesizeLeaderboardPage st d s page = .ok (some pl) →
        ∀ (i : Nat) (h : i < pl.items.length),
          (pl.items.get ⟨i, h⟩).rank_at_fetch =
            some (((page : Int) - 1) * (ps : Int) + (i : Int) + 1)) := by
  constructor
  · intro st d skillId rec lkp es entry sm ps hlkp hes hentry hsm hps hres
    simp only [buildSnapshotSkillRecord, hlkp, hsm, loadObj, hes, hentry,
      Option.bind_some, Option.some_bind] at hres
    split at hres
    · split at hres
      · exact absurd hres (by simp)
      · split at hres
        · exact absurd hres (by simp)
        · split at hres
          · exact absurd hres (by simp)
          · have hrec := Option.some.inj (Except.ok.inj hres)
            subst hrec
            simp [hps]
    · exact absurd hres (by simp)
  · intro st d s page pl sm ps hsm hps hres i h
    simp only [synthesizeLeaderboardPage, hsm, loadObj] at hres
    split at hres
    · split at hres
      · exact absurd hres (by simp)
      · exact absurd hres (by simp)
      · split at hres
        · exact absurd hres (by simp)
        · have hpl := (Except.ok.inj hres)
          have hpl' := Option.some.inj hpl
          subst hpl'
          simp only [List.get_eq_getElem, List.getElem_mapIdx,
            snapshotItemToSkillListItem, hps, Option.getD_some, Option.some_bind]
    · exact absurd hres (by simp)

def rowC4a : SnapshotSkillPageItem :=
  { source := "o/r", skillId := "zeta", name := "Zeta Tool", installs := some 250 }

def rowC4b : SnapshotSkillPageItem :=
  { source := "o/r", skillId := "alpha", name := "Alpha Tool", installs := some 100 }

def lkpC4 : SnapshotSkillLookupDocument :=
  { snapshot_date := some "2025-01-15"
    total_entries := some 2
    entries := some [("o/r/alpha", ⟨3, 1⟩), ("o/r/zeta", ⟨3, 0⟩)] }

def smC4 : SnapshotSkillsManifest :=
  { snapshot_date := some "2025-01-15"
    total_skills := some 6
    page_size := some 2
    page_count := some 3 }

def storeC4 : Store :=
  { latestManifest := .absent
    latestSnapshot := .absent
    statsSummary := fun _ => .absent
    skillsManifest := fun d => if d = "2025-01-15" then .val smC4 else .absent
    skillsPage := fun d p =>
      if d = "2025-01-15" ∧ p = 3 then .val [rowC4a, rowC4b] else .absent
    skillLookup := fun d => if d = "2025-01-15" then .val lkpC4 else .absent
    searchIndex := fun _ => .absent }

def recC4 : SkillRecord :=
  { id := "o/r/alpha"
    skill_id := "alpha"
    owner := "o"
    repo := "r"
    canonical_url := "https://skills.sh/o/r/alpha"
    total_installs := some 100
    weekly_installs := none
    weekly_installs_raw := none
    platform_installs := none
    name := "Alpha Tool"
    description := none
    first_seen_date := none
    github_url := "https://github.com/o/r"
    og_image_url := none
    run_id := "snapshot-2025-01-15"
    fetched_at := "2025-01-15T00:00:00.000Z"
    discovery_source := "leaderboard"
    source_endpoint := "leaderboard"
    discovery_pass := 1
    rank_at_fetch := 6
    http_status := 200
    parser_version := "snapshot-proxy"
    raw_html_hash := none
    skill_md_content := none
    skill_md_frontmatter := none
    install_command := none
    categories := [] }

/-- Closed instance of C4: the record synthesized for lookup entry
    `(page 3, index 1)` under manifest page size 2 carries rank
    `(3-1)*2 + 1 + 1 = 6`. -/
theorem synthesized_rank_formula_witness :
    buildSnapshotSkillRecord storeC4 "2025-01-15" "o/r/alpha" = .ok (some recC4)
    ∧ recC4.rank_at_fetch = 6 := by
  have h := synthesized_rank_formula.1 storeC4 "2025-01-15" "o/r/alpha" recC4
    lkpC4 [("o/r/alpha", ⟨3, 1⟩), ("o/r/zeta", ⟨3, 0⟩)] ⟨3, 1⟩ smC4 2
    (by decide) rfl (by decide) (by decide) rfl (by decide)
  refine ⟨by decide, ?_⟩
  rw [h]
  decide

/-- C5: for every compound id and snapshot date, skill-detail and
    metrics synthesis return ordinary absence (`.ok none`, never a
    thrown error) whenever the lookup document is absent, the id has no
    lookup entry, the referenced page is absent, or the row at the
    referenced index is absent. -/
theorem synthesis_missing_artifacts_null :
    ∀ (st : Store) (d skillId : String),
      (st.skillLookup d = .absent →
        buildSnapshotSkillRecord st d skillId = .ok none ∧
        buildSnapshotMetricsResponse st d skillId = .ok none)
      ∧ (∀ lkp : SnapshotSkillLookupDocument, st.skillLookup d = .val lkp →
          (lkp.entries.bind (List.lookup skillId) = none →
            buildSnapshotSkillRecord st d skillId = .ok none ∧
            buildSnapshotMetricsResponse st d skillId = .ok none)
          ∧ (∀ (es : List (String × SnapshotSkillLookup)) (entry : SnapshotSkillLookup),
              lkp.entries = some es → es.lookup skillId = some entry →
              (st.skillsPage d entry.page = .absent →
                buildSnapshotSkillRecord st d skillId = .ok none ∧
                buildSnapshotMetricsResponse st d skillId = .ok none)
              ∧ (∀ rows : List SnapshotSkillPageItem,
                  st.skillsPage d entry.page = .val rows → rows[entry.index]? = none →
                  buildSnapshotSkillRecord st d skillId = .ok none ∧
                  buildSnapshotMetricsResponse st d skillId = .ok none))) := by
  intro st d skillId
  refine ⟨?_, ?_⟩
  · intro h
    refine ⟨?_, ?_⟩
    · simp only [buildSnapshotSkillRecord, h, loadObj, Option.none_bind,
        Option.some_bind]
      split
      · split
        · rfl
        · rfl
      · rfl
    · simp only [buildSnapshotMetricsResponse, h, loadObj, Option.none_bind,
        Option.some_bind]
  · intro lkp h
    refine ⟨?_, ?_⟩
    · intro he
      refine ⟨?_, ?_⟩
      · simp only [buildSnapshotSkillRecord, h, loadObj, Option.some_bind, he]
        split
        · split
          · rfl
          · rfl
        · rfl
      · simp only [buildSnapshotMetricsResponse, h, loadObj, Option.some_bind, he]
    · intro es entry hes hentry
      have hbind : lkp.entries.bind (List.lookup skillId) = some entry := by
        rw [hes]; simpa using hentry
      refine ⟨?_, ?_⟩
      · intro hp
        refine ⟨?_, ?_⟩
        · simp only [buildSnapshotSkillRecord, h, loadObj, Option.some_bind,
            hbind, hp, Option.none_bind]
          split
          · split
            · rfl
            · rfl
          · rfl
        · simp only [buildSnapshotMetricsResponse, h, loadObj, Option.some_bind,
            hbind, hp, Option.none_bind]
      · intro rows hrows hnone
        refine ⟨?_, ?_⟩
        · simp only [buildSnapshotSkillRecord, h, loadObj, Option.some_bind,
            hbind, hrows, hnone]
          split
          · split
            · rfl
            · rfl
          · rfl
        · simp only [buildSnapshotMetricsResponse, h, loadObj, Option.some_bind,
            hbind, hrows, hnone]

def storeC5 : Store :=
  { latestManifest := .absent
    latestSnapshot := .absent
    statsSummary := fun _ => .absent
    skillsManifest := fun _ => .absent
    skillsPage := fun _ _ => .absent
    skillLookup := fun d =>
      if d = "2025-01-15" then
        .val { snapshot_date := some "2025-01-15"
               total_entries := some 1
               entries := some [("o/r/alpha", ⟨2, 0⟩)] }
      else .absent
    searchIndex := fun _ => .absent }

/-- Closed instance of C5: a lookup entry that references an absent
    page makes both builders return null, not an error. -/
theorem synthesis_missing_artifacts_null_witness :
    buildSnapshotSkillRecord storeC5 "2025-01-15" "o/r/alpha" = .ok none ∧
    buildSnapshotMetricsResponse storeC5 "2025-01-15" "o/r/alpha" = .ok none := by
  exact ((synthesis_missing_artifacts_null storeC5 "2025-01-15" "o/r/alpha").2
    { snapshot_date := some "2025-01-15"
      total_entries := some 1
      entries := some [("o/r/alpha", ⟨2, 0⟩)] } (by decide)).2
    [("o/r/alpha", ⟨2, 0⟩)] ⟨2, 0⟩ rfl (by decide) |>.1 (by decide)

/-! ### SearchEngine sorting (worker/src/index.ts, sortItems)

`[...items].sort(cmp)` is modelled as the stable `List.insertionSort`
over the relation "cmp a b <= 0": for the numeric modes the comparator
is `(b.x ?? 0) - (a.x ?? 0)` (descending, missing values as 0), and for
"name" it is `a.name.localeCompare(b.name)`, modelled as code-point
lexicographic order on the character list. -/

def sortLe (sort : String) (a b : SearchIndexItem) : Prop :=
  if sort = "name" then a.name.data ≤ b.name.data
  else if sort = "weekly" then b.weekly_installs.getD 0 ≤ a.weekly_installs.getD 0
  else b.total_installs.getD 0 ≤ a.total_installs.getD 0

instance sortLeDecidable (sort : String) : DecidableRel (sortLe sort) := fun a b =>
  if h : sort = "name" then
    decidable_of_iff (a.name.data ≤ b.name.data) (by simp [sortLe, h])
  else if h2 : sort = "weekly" then
    decidable_of_iff (b.weekly_installs.getD 0 ≤ a.weekly_installs.getD 0)
      (by simp [sortLe, h, h2])
  else
    decidable_of_iff (b.total_installs.getD 0 ≤ a.total_installs.getD 0)
      (by simp [sortLe, h, h2])

/-- `sortItems(items, sort)`: a fresh stably sorted copy; the branch on
    the sort mode is inside `sortLe`, with "installs" as the default
    relation exactly as in the source dispatch. -/
def sortItems (items : List SearchIndexItem) (sort : String) : List SearchIndexItem :=
  items.insertionSort (sortLe sort)

theorem sortLe_total (sort : String) (a b : SearchIndexItem) :
    sortLe sort a b ∨ sortLe sort b a := by
  unfold sortLe
  split
  · exact le_total a.name.data b.name.data
  · split
    · exact le_total (b.weekly_installs.getD 0) (a.weekly_installs.getD 0)
    · exact le_total (b.total_installs.getD 0) (a.total_installs.getD 0)

theorem sortLe_trans (sort : String) (a b c : SearchIndexItem) :
    sortLe sort a b → sortLe sort b c → sortLe sort a c := by
  unfold sortLe
  split
  · exact le_trans
  · split
    · intro h1 h2; exact le_trans h2 h1
    · intro h1 h2; exact le_trans h2 h1

/-- C6: re-sorting a sorted sequence is a no-op (the sort is
    idempotent), each mode's comparison relation is a total preorder
    (reflexive, transitive, total), and the output is sorted by that
    relation, in particular "name" output is lexicographically ascending
    by name under a transitive comparison. -/
theorem sortItems_idempotent_total_preorder :
    (∀ (sort : String) (items : List SearchIndexItem),
        sortItems (sortItems items sort) sort = sortItems items sort)
    ∧ (∀ (sort : String) (a : SearchIndexItem), sortLe sort a a)
    ∧ (∀ (sort : String) (a b : SearchIndexItem), sortLe sort a b ∨ sortLe sort b a)
    ∧ (∀ (sort : String) (a b c : SearchIndexItem),
        sortLe sort a b → sortLe sort b c → sortLe sort a c)
    ∧ (∀ (sort : String) (items : List SearchIndexItem),
        (sortItems items sort).Sorted (sortLe sort))
    ∧ (∀ items : List SearchIndexItem,
        (sortItems items "name").Sorted (fun a b => a.name.data ≤ b.name.data)) := by
  have hsorted : ∀ (sort : String) (items : List SearchIndexItem),
      (sortItems items sort).Sorted (sortLe sort) := by
    intro sort items
    haveI : IsTotal SearchIndexItem (sortLe sort) := ⟨sortLe_total sort⟩
    haveI : IsTrans SearchIndexItem (sortLe sort) := ⟨sortLe_trans sort⟩
    exact List.sorted_insertionSort (sortLe sort) items
  refine ⟨?_, ?_, sortLe_total, sortLe_trans, hsorted, ?_⟩
  · intro sort items
    exact List.Sorted.insertionSort_eq (hsorted sort items)
  · intro sort a
    exact (sortLe_total sort a a).elim id id
  · intro items
    have h := hsorted "name" items
    have : sortLe "name" = fun a b : SearchIndexItem => a.name.data ≤ b.name.data := by
      funext a b
      simp [sortLe]
    rw [this] at h
    exact h

def itemC6a : SearchIndexItem :=
  { id := "o/r/alpha", skill_id := "alpha", owner := "o", repo := "r"
    name := "Alpha", canonical_url := "https://skills.sh/o/r/alpha"
    total_installs := some 100, weekly_installs := some 10, rank_at_fetch := some 1 }

def itemC6b : SearchIndexItem :=
  { id := "o/r/beta", skill_id := "beta", owner := "o", repo := "r"
    name := "Beta", canonical_url := "https://skills.sh/o/r/beta"
    total_installs := some 50, weekly_installs := some 20, rank_at_fetch := some 2 }

def itemC6c : SearchIndexItem :=
  { id := "o/r/gamma", skill_id := "gamma", owner := "o", repo := "r"
    name := "Gamma", canonical_url := "https://skills.sh/o/r/gamma"
    total_installs := none, weekly_installs := some 5, rank_at_fetch := some 3 }

/-- Closed instance of C6: transitivity of the installs relation on
    three concrete items (one with a missing count, treated as 0),
    together with a concrete evaluated sort and its idempotence. -/
theorem sortItems_idempotent_total_preorder_witness :
    sortLe "installs" itemC6a itemC6b ∧ sortLe "installs" itemC6b itemC6c ∧
    sortLe "installs" itemC6a itemC6c ∧
    sortItems [itemC6c, itemC6a, itemC6b] "installs" = [itemC6a, itemC6b, itemC6c] ∧
    sortItems (sortItems [itemC6c, itemC6a, itemC6b] "installs") "installs" =
      sortItems [itemC6c, itemC6a, itemC6b] "installs" := by
  refine ⟨by decide, by decide, ?_, by decide, ?_⟩
  · exact sortItems_idempotent_total_preorder.2.2.2.1 "installs"
      itemC6a itemC6b itemC6c (by decide) (by decide)
  · exact sortItems_idempotent_total_preorder.1 "installs" [itemC6c, itemC6a, itemC6b]

/-! ### SearchEngine indexed path (worker/src/index.ts, lines 996-1013
and 854-880): filter by case-insensitive substring on name or id, sort,
then slice `[(page-1)*page_size, (page-1)*page_size + page_size)`. -/

/-- The filter of the indexed path; the query is already lowercased by
    the caller (`rawQ.toLowerCase()`). -/
def searchFilter (items : List SearchIndexItem) (query : String) : List SearchIndexItem :=
  items.filter (fun item =>
    jsIncludes (jsToLower item.name) query || jsIncludes (jsToLower item.id) query)

structure IndexedPayload where
  items : List SearchIndexItem
  page : Nat
  page_size : Nat
  total : Nat
  snapshot_date : Option String
deriving DecidableEq

/-- The indexed `/v1/search` payload (lines 999-1012):
    `sorted.slice(start, start + pageSize)` is `drop`/`take`. -/
def searchIndexedPayload (doc : SearchIndexDocument) (query sort : String)
    (page pageSize : Nat) : IndexedPayload :=
  let filtered := searchFilter doc.items query
  let sorted := sortItems filtered sort
  let start := (page - 1) * pageSize
  { items := (sorted.drop start).take pageSize
    page := page
    page_size := pageSize
    total := sorted.length
    snapshot_date := doc.snapshot_date }

/-- Consecutive `ps`-sized slices of a list join back to its prefix. -/
theorem slice_chunks_join {α : Type} (l : List α) (ps : Nat) :
    ∀ n : Nat,
      ((List.range n).map (fun k => (l.drop (k * ps)).take ps)).flatten = l.take (n * ps) := by
  intro n
  induction n with
  | zero => simp
  | succ n ih =>
      rw [List.range_succ, List.map_append, List.flatten_append, ih]
      simp only [List.map_cons, List.map_nil, List.flatten_cons, List.flatten_nil,
        List.append_nil]
      rw [Nat.succ_mul, List.take_add]

/-- C7: on the indexed search path, page `k+1` is exactly the slice
    `[k*ps, k*ps + ps)` of the filtered sorted list; concatenating
    consecutive pages reproduces the whole filtered sorted list with
    nothing duplicated or lost; `total` is the length of that list; and
    no page exceeds `page_size` items. -/
theorem search_pagination_slice :
    ∀ (doc : SearchIndexDocument) (query sort : String) (ps : Nat),
      (∀ k : Nat,
          (searchIndexedPayload doc query sort (k + 1) ps).items =
            ((sortItems (searchFilter doc.items query) sort).drop (k * ps)).take ps)
      ∧ (∀ n : Nat,
          ((List.range n).map
              (fun k => (searchIndexedPayload doc query sort (k + 1) ps).items)).flatten =
            (sortItems (searchFilter doc.items query) sort).take (n * ps))
      ∧ (∀ n : Nat,
          (sortItems (searchFilter doc.items query) sort).length ≤ n * ps →
          ((List.range n).map
              (fun k => (searchIndexedPayload doc query sort (k + 1) ps).items)).flatten =
            sortItems (searchFilter doc.items query) sort)
      ∧ (∀ p : Nat,
          (searchIndexedPayload doc query sort p ps).total =
            (sortItems (searchFilter doc.items query) sort).length)
      ∧ (∀ p : Nat, (searchIndexedPayload doc query sort p ps).items.length ≤ ps) := by
  intro doc query sort ps
  have hslice : ∀ k : Nat,
      (searchIndexedPayload doc query sort (k + 1) ps).items =
        ((sortItems (searchFilter doc.items query) sort).drop (k * ps)).take ps := by
    intro k
    simp [searchIndexedPayload]
  have hjoin : ∀ n : Nat,
      ((List.range n).map
          (fun k => (searchIndexedPayload doc query sort (k + 1) ps).items)).flatten =
        (sortItems (searchFilter doc.items query) sort).take (n * ps) := by
    intro n
    calc ((List.range n).map
            (fun k => (searchIndexedPayload doc query sort (k + 1) ps).items)).flatten
        = ((List.range n).map
            (fun k => ((sortItems (searchFilter doc.items query) sort).drop (k * ps)).take ps)).flatten :=
          congrArg List.flatten (List.map_congr_left (fun k _ => hslice k))
      _ = (sortItems (searchFilter doc.items query) sort).take (n * ps) :=
          slice_chunks_join _ ps n
  refine ⟨hslice, hjoin, ?_, fun _ => rfl, ?_⟩
  · intro n hn
    rw [hjoin n, List.take_of_length_le hn]
  · intro p
    simp only [searchIndexedPayload]
    exact List.length_take_le ps _

def docC7 : SearchIndexDocument :=
  { snapshot_date := some "2025-01-15", items := [itemC6a, itemC6b, itemC6c] }

/-- Closed instance of C7: with three matching items and page size 2,
    pages 1 and 2 concatenate back to the full sorted list. -/
theorem search_pagination_slice_witness :
    (sortItems (searchFilter docC7.items "a") "installs").length ≤ 2 * 2 ∧
    ((List.range 2).map
        (fun k => (searchIndexedPayload docC7 "a" "installs" (k + 1) 2).items)).flatten =
      sortItems (searchFilter docC7.items "a") "installs" := by
  refine ⟨by decide, ?_⟩
  exact (search_pagination_slice docC7 "a" "installs" 2).2.2.1 2 (by decide)

/-! ### CacheTier at the text level (worker/src/index.ts, lines 307-357
and 542-561)

The edge response cache stores the exact text under a synthetic request
URL `/cache/<suffix>` on the request origin; with the origin fixed per
request it is modelled as an association list from suffix to text, with
insertion at the front (a lookup sees the newest entry first, matching
`cache.put` overwrite semantics).  The durable bucket is a partial map
from object key to text, `none` when the binding or the object is
missing.  `JSON.parse` composed with the TypeScript cast is a
caller-supplied partial decoding function; `none` models a parse
throw. -/

def loadJsonTextWithCache (bucket : Option (String → Option String)) (key : String)
    (cacheSuffix : String) (cache : List (String × String)) :
    Option String × List (String × String) :=
  match bucket with
  | none => (none, cache)
  | some b =>
      match cache.lookup cacheSuffix with
      | some text => (some text, cache)
      | none =>
          match b key with
          | none => (none, cache)
          | some text => (some text, (cacheSuffix, text) :: cache)

/-- `parseJson<T>(text, label)`: decode or throw the typed error whose
    message carries the label (the callers pass the object key). -/
def parseJson {α : Type} (dec : String → Option α) (text label : String) :
    Except String α :=
  match dec text with
  | some v => .ok v
  | none => .error ("Invalid JSON in " ++ label)

/-- `loadJsonObjectWithCache`: load the text (through the edge cache),
    treat falsy text as null, then parse. -/
def loadJsonObjectWithCache {α : Type} (dec : String → Option α)
    (bucket : Option (String → Option String)) (key cacheSuffix : String)
    (cache : List (String × String)) :
    Except String (Option α) × List (String × String) :=
  let r := loadJsonTextWithCache bucket key cacheSuffix cache
  match r.1 with
  | none => (.ok none, r.2)
  | some text =>
      if text = "" then (.ok none, r.2)
      else ((parseJson dec text key).map some, r.2)

structure ParsedCache where
  key : String
  loadedAtMs : Int
  doc : SearchIndexDocument
deriving DecidableEq

/-- Freshness test of the in-process parsed-search-index cache
    (`parsedSearchCache.key === key && now - loadedAt < TTL`). -/
def parsedCacheFresh (key : String) (nowMs : Int) : Option ParsedCache → Bool
  | some pc => pc.key == key && decide (nowMs - pc.loadedAtMs < 60000)
  | none => false

/-- The cache-miss path of `loadSearchIndex`: read the text through
    the edge cache, parse, validate the payload, then populate the
    in-process decoded cache. -/
def loadSearchIndexMiss (dec : String → Option SearchIndexDocument)
    (bucket : Option (String → Option String)) (snapshotDate : String) (nowMs : Int)
    (psc : Option ParsedCache) (cache : List (String × String)) :
    Except String (Option SearchIndexDocument) × Option ParsedCache ×
      List (String × String) :=
  let key := searchIndexKey snapshotDate
  let r := loadJsonTextWithCache bucket key ("search-index/" ++ snapshotDate) cache
  match r.1 with
  | none => (.ok none, psc, r.2)
  | some text =>
      if text = "" then (.ok none, psc, r.2)
      else
        match parseJson dec text key with
        | .error e => (.error e, psc, r.2)
        | .ok doc =>
            if strFalsy doc.snapshot_date ∨ ¬ isDateString (doc.snapshot_date.getD "") then
              (.error "Invalid search index payload", psc, r.2)
            else
              (.ok (some doc), some { key := key, loadedAtMs := nowMs, doc := doc }, r.2)

/-- `loadSearchIndex` (lines 542-561) with its two cache layers: the
    in-process decoded cache (set only after a successful parse and
    payload validation) and the edge text cache threaded through
    `loadJsonTextWithCache`. -/
def loadSearchIndexStateful (dec : String → Option SearchIndexDocument)
    (bucket : Option (String → Option String)) (snapshotDate : String) (nowMs : Int)
    (psc : Option ParsedCache) (cache : List (String × String)) :
    Except String (Option SearchIndexDocument) × Option ParsedCache ×
      List (String × String) :=
  let key := searchIndexKey snapshotDate
  match psc with
  | some pc =>
      if pc.key == key && decide (nowMs - pc.loadedAtMs < 60000) then
        (.ok (some pc.doc), psc, cache)
      else loadSearchIndexMiss dec bucket snapshotDate nowMs psc cache
  | none => loadSearchIndexMiss dec bucket snapshotDate nowMs psc cache

def decNoneC2 : String → Option SearchIndexDocument := fun _ => none

def bucketC2 : String → Option String :=
  fun k => if k = "data/v1/latest.json" then some "\x7bnot-json" else none

/-- C2 counterexample: loading a malformed object throws the typed
    error carrying the key, yet the edge response cache afterwards does
    hold an entry for that key (the raw text is cached by
    `loadJsonTextWithCache` before parsing happens), contradicting
    "no cache layer holds an entry for that key". -/
theorem malformed_json_is_cached_in_edge_cache :
    (loadJsonObjectWithCache decNoneC2 (some bucketC2) "data/v1/latest.json"
        "latest-manifest" []).1 = .error "Invalid JSON in data/v1/latest.json"
    ∧ ((loadJsonObjectWithCache decNoneC2 (some bucketC2) "data/v1/latest.json"
        "latest-manifest" []).2).lookup "latest-manifest" = some "\x7bnot-json" := by
  exact ⟨rfl, rfl⟩

/-- The cache-miss path either leaves the in-process decoded cache
    untouched or succeeded with a parsed document; in particular every
    error result keeps the decoded cache unchanged. -/
theorem loadSearchIndexMiss_psc (dec : String → Option SearchIndexDocument)
    (bucket : Option (String → Option String)) (d : String) (now : Int)
    (psc : Option ParsedCache) (cache : List (String × String)) :
    (loadSearchIndexMiss dec bucket d now psc cache).2.1 = psc ∨
    ∃ doc, (loadSearchIndexMiss dec bucket d now psc cache).1 = .ok (some doc) := by
  simp only [loadSearchIndexMiss]
  rcases hr : (loadJsonTextWithCache bucket (searchIndexKey d)
      ("search-index/" ++ d) cache).1 with _ | text <;>
    simp only [hr]
  · left; trivial
  · by_cases ht : text = ""
    · rw [if_pos ht]
      left; trivial
    · rw [if_neg ht]
      rcases hp : parseJson dec text (searchIndexKey d) with e2 | doc <;>
        simp only [hp]
      · left; trivial
      · split
        · left; trivial
        · right; exact ⟨doc, rfl⟩

/-- C2 (amended): a JSON parse failure throws an error whose message
    carries the offending key and the malformed document never enters
    the in-process decoded cache; however the raw text has already been
    written to the edge response cache by the text loader, so a
    subsequent load of that key is served the same text from the edge
    cache instead of re-reading the durable store. -/
theorem malformed_json_error_and_caches :
    (∀ {α : Type} (dec : String → Option α) (b : String → Option String)
        (key suffix : String) (cache : List (String × String)) (text : String),
        cache.lookup suffix = none → b key = some text → text ≠ "" → dec text = none →
        (loadJsonObjectWithCache dec (some b) key suffix cache).1 =
            .error ("Invalid JSON in " ++ key)
        ∧ ((loadJsonObjectWithCache dec (some b) key suffix cache).2).lookup suffix =
            some text
        ∧ (∀ b2 : String → Option String,
            (loadJsonTextWithCache (some b2) key suffix
                (loadJsonObjectWithCache dec (some b) key suffix cache).2).1 =
              some text))
    ∧ (∀ (dec : String → Option SearchIndexDocument)
        (bucket : Option (String → Option String)) (d : String) (now : Int)
        (psc : Option ParsedCache) (cache : List (String × String)) (e : String),
        (loadSearchIndexStateful dec bucket d now psc cache).1 = .error e →
        (loadSearchIndexStateful dec bucket d now psc cache).2.1 = psc) := by
  constructor
  · intro α dec b key suffix cache text hcache hkey htext hdec
    have hr : loadJsonTextWithCache (some b) key suffix cache =
        (some text, (suffix, text) :: cache) := by
      simp [loadJsonTextWithCache, hcache, hkey]
    refine ⟨?_, ?_, ?_⟩
    · simp [loadJsonObjectWithCache, hr, htext, parseJson, hdec, Except.map]
    · simp [loadJsonObjectWithCache, hr, htext, parseJson, hdec, Except.map,
        List.lookup]
    · intro b2
      have hobj : (loadJsonObjectWithCache dec (some b) key suffix cache).2 =
          (suffix, text) :: cache := by
        simp [loadJsonObjectWithCache, hr, htext, parseJson, hdec, Except.map]
      rw [hobj]
      simp [loadJsonTextWithCache, List.lookup]
  · intro dec bucket d now psc cache e h
    have hmiss : ∀ psc2 : Option ParsedCache,
        (loadSearchIndexMiss dec bucket d now psc2 cache).1 = .error e →
        (loadSearchIndexMiss dec bucket d now psc2 cache).2.1 = psc2 := by
      intro psc2 h2
      rcases loadSearchIndexMiss_psc dec bucket d now psc2 cache with h1 | ⟨doc, hdoc⟩
      · exact h1
      · rw [hdoc] at h2
        cases h2
    rcases hp : psc with _ | pc
    · subst hp
      exact hmiss none h
    · subst hp
      simp only [loadSearchIndexStateful] at h ⊢
      by_cases hfresh :
          (pc.key == searchIndexKey d && decide (now - pc.loadedAtMs < 60000)) = true
      · rw [if_pos hfresh] at h
        simp at h
      · rw [if_neg hfresh] at h ⊢
        exact hmiss (some pc) h

/-- Closed instance of C2 (amended): the malformed text sits in the
    edge cache and a follow-up read with an empty durable store is
    served from the edge cache. -/
theorem malformed_json_error_and_caches_witness :
    ((loadJsonObjectWithCache decNoneC2 (some bucketC2) "data/v1/latest.json"
        "latest-manifest" []).2).lookup "latest-manifest" = some "\x7bnot-json"
    ∧ (loadJsonTextWithCache (some fun _ => none) "data/v1/latest.json" "latest-manifest"
        (loadJsonObjectWithCache decNoneC2 (some bucketC2) "data/v1/latest.json"
          "latest-manifest" []).2).1 = some "\x7bnot-json" := by
  have h := malformed_json_error_and_caches.1 decNoneC2 bucketC2 "data/v1/latest.json"
    "latest-manifest" [] "\x7bnot-json" rfl (by decide) (by decide) rfl
  exact ⟨h.2.1, h.2.2 (fun _ => none)⟩

/-! ### Query parameter coercion (worker/src/index.ts, parsePositiveInt)

`Number(value)` on a nullable query parameter: `Number(null) = 0` and
`Number("") = 0` (both finite), a non-numeric string is NaN.  The
decoding of numeric strings is modelled for optional-sign decimal
integers; fractional and exponent forms do not occur in the worker's
inputs of interest, and `Math.floor` is the identity on the integers
produced here. -/

def jsDecInt (s : String) : Option Int :=
  match (jsTrim s).data with
  | [] => some 0
  | '-' :: ds =>
      if ds ≠ [] && ds.all isDigitChar then some (-(natOfDigits ds : Int)) else none
  | '+' :: ds =>
      if ds ≠ [] && ds.all isDigitChar then some ((natOfDigits ds : Int)) else none
  | ds => if ds.all isDigitChar then some ((natOfDigits ds : Int)) else none

def parsePositiveInt (value : Option String) (fallback : Int) : Int :=
  match value with
  | none => 0
  | some s =>
      match jsDecInt s with
      | none => fallback
      | some n => n

def isSortMode (s : String) : Bool :=
  s == "installs" || s == "weekly" || s == "name"

/-! ### SearchEngine (worker/src/index.ts, /v1/search handler,
lines 961-1055, and /v1/skills prologue, lines 781-808) -/

/-- `loadSearchIndex` on a cold in-process cache, over the classified
    store: absent or empty text is null, unparseable text throws, a
    parsed document is payload-validated (`items` is always an array in
    this model, so `Array.isArray` holds). -/
def loadSearchIndexCold (st : Store) (d : String) :
    Except String (Option SearchIndexDocument) :=
  match st.searchIndex d with
  | .absent => .ok none
  | .empty => .ok none
  | .malformed => .error ("Invalid JSON in " ++ searchIndexKey d)
  | .val doc =>
      if strFalsy doc.snapshot_date ∨ ¬ isDateString (doc.snapshot_date.getD "") then
        .error "Invalid search index payload"
      else .ok (some doc)

/-- The comparator relation of the lookup-fallback sort (lines
    1021-1024): "name" compares the compound ids, any other mode
    compares `(page, index)` position. -/
def fallbackEntryLe (sort : String) (a b : String × SnapshotSkillLookup) : Prop :=
  if sort = "name" then a.1.data ≤ b.1.data
  else a.2.page < b.2.page ∨ (a.2.page = b.2.page ∧ a.2.index ≤ b.2.index)

instance fallbackEntryLeDecidable (sort : String) :
    DecidableRel (fallbackEntryLe sort) := fun a b =>
  if h : sort = "name" then
    decidable_of_iff (a.1.data ≤ b.1.data) (by simp [fallbackEntryLe, h])
  else
    decidable_of_iff (a.2.page < b.2.page ∨ (a.2.page = b.2.page ∧ a.2.index ≤ b.2.index))
      (by simp [fallbackEntryLe, h])

/-- The row-resolution loop of the lookup fallback (lines 1030-1045):
    resolve each selected id through the per-request page cache, skip
    ids whose row is missing (`if (!raw) continue`), and force the item
    id back to the lookup id. -/
def searchFallbackLoop (st : Store) (d : String) (rawPageSize : Nat) :
    List (String × SnapshotSkillLookup) → List (Nat × List SnapshotSkillPageItem) →
    Except String (List SkillListItem)
  | [], _ => .ok []
  | (id, ref) :: rest, pageCache =>
      match pageCache.lookup ref.page with
      | some rows =>
          match rows[ref.index]? with
          | none => searchFallbackLoop st d rawPageSize rest pageCache
          | some raw =>
              let mapped := snapshotItemToSkillListItem raw
                (((ref.page : Int) - 1) * (rawPageSize : Int) + (ref.index : Int) + 1)
              let mapped2 := if mapped.id ≠ id then { mapped with id := id } else mapped
              (searchFallbackLoop st d rawPageSize rest pageCache).map
                (fun items => mapped2 :: items)
      | none =>
          match loadObj (snapshotSkillsPageKey d ref.page) (st.skillsPage d ref.page) with
          | .error e => .error e
          | .ok rowsOpt =>
              let rows := rowsOpt.getD []
              match rows[ref.index]? with
              | none => searchFallbackLoop st d rawPageSize rest ((ref.page, rows) :: pageCache)
              | some raw =>
                  let mapped := snapshotItemToSkillListItem raw
                    (((ref.page : Int) - 1) * (rawPageSize : Int) + (ref.index : Int) + 1)
                  let mapped2 := if mapped.id ≠ id then { mapped with id := id } else mapped
                  (searchFallbackLoop st d rawPageSize rest ((ref.page, rows) :: pageCache)).map
                    (fun items => mapped2 :: items)

structure FallbackPayload where
  items : List SkillListItem
  page : Nat
  page_size : Nat
  total : Nat
  snapshot_date : String
deriving DecidableEq

inductive SearchOutcome where
  | errResp (status : Nat) (msg : String)
  | indexed (p : IndexedPayload)
  | fallback (p : FallbackPayload)
deriving DecidableEq

/-- The lookup-fallback tail of `/v1/search` (lines 1016-1054): filter
    the lookup entries by substring match on the compound id, sort,
    slice, resolve rows, and answer with `total` = number of matching
    entries.  `Object.entries` on a document without an `entries` field
    throws a TypeError, which the router turns into a 500. -/
def searchFallback (st : Store) (snapshotDate query sortParam : String)
    (page pageSize : Nat) : Except String SearchOutcome :=
  match loadObj (snapshotSkillLookupKey snapshotDate) (st.skillLookup snapshotDate) with
  | .error e => .error e
  | .ok none => .ok (.errResp 503 "Search index unavailable")
  | .ok (some lookup) =>
      match lookup.entries with
      | none => .error "Cannot convert undefined or null to object"
      | some entryList =>
          let entries := entryList.filter (fun e => jsIncludes (jsToLower e.1) query)
          let sortedEntries := entries.insertionSort (fallbackEntryLe sortParam)
          let start := (page - 1) * pageSize
          let selected := (sortedEntries.drop start).take pageSize
          match loadObj (snapshotSkillsManifestKey snapshotDate)
              (st.skillsManifest snapshotDate) with
          | .error e => .error e
          | .ok smOpt =>
              let rawPageSize := (smOpt.bind (·.page_size)).getD 200
              match searchFallbackLoop st snapshotDate rawPageSize selected [] with
              | .error e => .error e
              | .ok items =>
                  .ok (.fallback
                    { items := items
                      page := page
                      page_size := pageSize
                      total := sortedEntries.length
                      snapshot_date := snapshotDate })

/-- The `/v1/search` handler (lines 961-1055) after the rate-limit
    check: query-length validation happens first and consults nothing,
    then sort validation, paging coercion, snapshot resolution, and the
    indexed or fallback path. -/
def searchHandler (st : Store) (qP sortP pageP pageSizeP snapshotP : Option String) :
    Except String SearchOutcome :=
  let rawQ := jsTrim (qP.getD "")
  if rawQ.data.length < 2 then .ok (.errResp 400 "q must be at least 2 characters")
  else if rawQ.data.length > 100 then .ok (.errResp 400 "q must be <= 100 characters")
  else
    let sortParam := sortP.getD "installs"
    if ¬ isSortMode sortParam then
      .ok (.errResp 400 ("Invalid sort field: " ++ sortParam))
    else
      let page := (max 1 (parsePositiveInt pageP 1)).toNat
      let pageSize := (min 50 (max 1 (parsePositiveInt pageSizeP 12))).toNat
      match searchResolve snapshotP (loadLatestManifest st) with
      | .error e => .error e
      | .ok (.inl r) => .ok (.errResp r.1 r.2)
      | .ok (.inr snapshotDate) =>
          match loadSearchIndexCold st snapshotDate with
          | .error e => .error e
          | .ok (some index) =>
              .ok (.indexed
                (searchIndexedPayload index (jsToLower rawQ) sortParam page pageSize))
          | .ok none =>
              searchFallback st snapshotDate (jsToLower rawQ) sortParam page pageSize

structure SkillsParams where
  sortParam : String
  page : Nat
  page_size : Nat
  rawQ : String
  snapshot_date : String
deriving DecidableEq

/-- The validation prologue of `/v1/skills` (lines 785-808) after the
    rate-limit check: sort validation, paging coercion (max 200), the
    trimmed query with no length restriction, and snapshot resolution.
    `inl` is an early error response, `inr` proceeds to data access. -/
def skillsPrologue (st : Store) (qP sortP pageP pageSizeP snapshotP : Option String) :
    Except String (Sum (Nat × String) SkillsParams) :=
  let sortParam := sortP.getD "installs"
  if ¬ isSortMode sortParam then .ok (.inl (400, "Invalid sort field: " ++ sortParam))
  else
    let page := (max 1 (parsePositiveInt pageP 1)).toNat
    let pageSize := (min 200 (max 1 (parsePositiveInt pageSizeP 200))).toNat
    let rawQ := jsTrim (qP.getD "")
    match skillsListResolve snapshotP (loadLatestManifest st) with
    | .error e => .error e
    | .ok (.inl r) => .ok (.inl r)
    | .ok (.inr d) =>
        .ok (.inr
          { sortParam := sortParam
            page := page
            page_size := pageSize
            rawQ := rawQ
            snapshot_date := d })

/-- The dynamic invalid-sort message always starts with the letter I,
    so it can never coincide with a query-length message. -/
theorem invalid_sort_msg_head (s : String) :
    ("Invalid sort field: " ++ s).data.head? = some 'I' := rfl

/-- The early error responses of the shared snapshot resolution carry
    either the endpoint's unavailable message or the date-format
    message. -/
theorem resolveSnapshotDate_inl_msg (msg : String) (p : Option String)
    (l : Except String (Option LatestManifest)) (r : Nat × String) :
    resolveSnapshotDate msg p l = .ok (.inl r) →
    r.2 = msg ∨ r.2 = "Invalid snapshot_date format" := by
  unfold resolveSnapshotDate
  split
  · match l with
    | .error e => intro h; cases h
    | .ok none => intro h; cases h; exact Or.inl rfl
    | .ok (some m) => intro h; cases h
  · split
    · intro h; cases h; exact Or.inr rfl
    · intro h; cases h

/-- C8: on `/v1/search` a trimmed query shorter than 2 characters is
    answered 400 "q must be at least 2 characters" and one longer than
    100 characters is answered 400 "q must be <= 100 characters", in
    both cases uniformly in the store, i.e. before any storage access;
    the `/v1/skills` prologue never produces either query-length error,
    and accepts the empty query, proceeding to data access. -/
theorem search_query_length_validation :
    (∀ (st : Store) (q : String) (sortP pageP pageSizeP snapshotP : Option String),
        (jsTrim q).data.length < 2 →
        searchHandler st (some q) sortP pageP pageSizeP snapshotP =
          .ok (.errResp 400 "q must be at least 2 characters"))
    ∧ (∀ (st : Store) (q : String) (sortP pageP pageSizeP snapshotP : Option String),
        (jsTrim q).data.length > 100 →
        searchHandler st (some q) sortP pageP pageSizeP snapshotP =
          .ok (.errResp 400 "q must be <= 100 characters"))
    ∧ (∀ (st : Store) (qP sortP pageP pageSizeP snapshotP : Option String)
        (r : Nat × String),
        skillsPrologue st qP sortP pageP pageSizeP snapshotP = .ok (.inl r) →
        r.2 ≠ "q must be at least 2 characters" ∧
        r.2 ≠ "q must be <= 100 characters")
    ∧ (∀ (st : Store) (pageP pageSizeP : Option String) (d : String),
        isDateString d = true →
        skillsPrologue st (some "") none pageP pageSizeP (some d) =
          .ok (.inr
            { sortParam := "installs"
              page := (max 1 (parsePositiveInt pageP 1)).toNat
              page_size := (min 200 (max 1 (parsePositiveInt pageSizeP 200))).toNat
              rawQ := ""
              snapshot_date := d })) := by
  refine ⟨?_, ?_, ?_, ?_⟩
  · intro st q sortP pageP pageSizeP snapshotP h
    simp only [searchHandler, Option.getD_some]
    rw [if_pos h]
  · intro st q sortP pageP pageSizeP snapshotP h
    simp only [searchHandler, Option.getD_some]
    rw [if_neg (by omega), if_pos h]
  · intro st qP sortP pageP pageSizeP snapshotP r h
    revert h
    simp only [skillsPrologue]
    split
    · intro h
      cases h
      constructor
      · intro hc
        have hc2 : "Invalid sort field: " ++ sortP.getD "installs" =
            "q must be at least 2 characters" := hc
        have hhead := invalid_sort_msg_head (sortP.getD "installs")
        rw [hc2] at hhead
        exact absurd hhead (by decide)
      · intro hc
        have hc2 : "Invalid sort field: " ++ sortP.getD "installs" =
            "q must be <= 100 characters" := hc
        have hhead := invalid_sort_msg_head (sortP.getD "installs")
        rw [hc2] at hhead
        exact absurd hhead (by decide)
    · rcases hres : skillsListResolve snapshotP (loadLatestManifest st) with e | v
      · intro h; cases h
      · rcases v with r2 | d2
        · intro h
          have heq : r = r2 := (Sum.inl.inj (Except.ok.inj h)).symm
          have hres2 : resolveSnapshotDate "Leaderboard unavailable" snapshotP
              (loadLatestManifest st) = .ok (.inl r2) := hres
          have hmsg := resolveSnapshotDate_inl_msg "Leaderboard unavailable"
            snapshotP (loadLatestManifest st) r2 hres2
          rw [heq]
          rcases hmsg with hm | hm <;> rw [hm] <;> exact ⟨by decide, by decide⟩
        · intro h; cases h
  · intro st pageP pageSizeP d hd
    have hne : ¬ d = "" := by
      intro hd0
      rw [hd0] at hd
      cases hd
    simp only [skillsPrologue, skillsListResolve, resolveSnapshotDate]
    rw [if_neg (by decide : ¬ (¬ isSortMode ((none : Option String).getD "installs") = true))]
    rw [if_neg (by simp [strFalsy, hne] : ¬ strFalsy (some d) = true)]
    rw [if_neg (by simp [hd] : ¬ (¬ isDateString ((some d).getD "") = true))]
    rfl

/-- Closed instance of C8: a one-character query is rejected with the
    minimum-length message even on an empty store. -/
theorem search_query_length_validation_witness :
    (jsTrim "a").data.length < 2 ∧
    searchHandler storeAllAbsent (some "a") none none none none =
      .ok (.errResp 400 "q must be at least 2 characters") := by
  refine ⟨by decide, ?_⟩
  exact search_query_length_validation.1 storeAllAbsent "a" none none none none
    (by decide)

/-! ### Characterization of the lookup-fallback row resolution (C10) -/

/-- The rows a fallback page fetch yields: the parsed page, or `[]`
    when the page object is missing or empty (`(await load) ?? []`). -/
def pageRowsOrEmpty (st : Store) (d : String) (p : Nat) : List SnapshotSkillPageItem :=
  match st.skillsPage d p with
  | .val rows => rows
  | _ => []

/-- `snapshotManifest?.page_size ?? 200` for a non-malformed manifest
    slot. -/
def manifestPageSizeOrDefault (st : Store) (d : String) : Nat :=
  match st.skillsManifest d with
  | .val sm => sm.page_size.getD 200
  | _ => 200

/-- What one selected lookup entry contributes to the fallback items:
    nothing when the referenced row is missing, else the projected item
    with the id forced back to the lookup id. -/
def fallbackResolveRow (st : Store) (d : String) (rawPageSize : Nat)
    (e : String × SnapshotSkillLookup) : Option SkillListItem :=
  match (pageRowsOrEmpty st d e.2.page)[e.2.index]? with
  | none => none
  | some raw =>
      let mapped := snapshotItemToSkillListItem raw
        (((e.2.page : Int) - 1) * (rawPageSize : Int) + (e.2.index : Int) + 1)
      some (if mapped.id ≠ e.1 then { mapped with id := e.1 } else mapped)

theorem lookup_mem {α β : Type} [BEq α] [LawfulBEq α] {l : List (α × β)} {a : α}
    {b : β} (h : l.lookup a = some b) : (a, b) ∈ l := by
  induction l with
  | nil => cases h
  | cons hd tl ih =>
      obtain ⟨k, v⟩ := hd
      by_cases hk : a == k
      · simp only [List.lookup, hk] at h
        cases h
        have hak : a = k := by simpa using hk
        subst hak
        exact List.mem_cons_self ..
      · have hk2 : (a == k) = false := Bool.not_eq_true _ ▸ by simpa using hk
        simp only [List.lookup, hk2] at h
        exact List.mem_cons_of_mem _ (ih h)

/-- The fallback resolution loop computes exactly the `filterMap` of
    the per-entry resolver, provided no referenced page is malformed
    and the page cache agrees with the store. -/
theorem searchFallbackLoop_filterMap (st : Store) (d : String) (ps : Nat) :
    ∀ (selected : List (String × SnapshotSkillLookup))
      (pageCache : List (Nat × List SnapshotSkillPageItem)),
      (∀ e ∈ selected, st.skillsPage d e.2.page ≠ .malformed) →
      (∀ pr ∈ pageCache, pr.2 = pageRowsOrEmpty st d pr.1) →
      searchFallbackLoop st d ps selected pageCache =
        .ok (selected.filterMap (fallbackResolveRow st d ps)) := by
  intro selected
  induction selected with
  | nil => intro pageCache _ _; rfl
  | cons e rest ih =>
      intro pageCache hmal hcoh
      obtain ⟨id, ref⟩ := e
      have hmal' : ∀ e ∈ rest, st.skillsPage d e.2.page ≠ .malformed :=
        fun e he => hmal e (List.mem_cons_of_mem _ he)
      simp only [searchFallbackLoop, List.filterMap_cons]
      rcases hc : pageCache.lookup ref.page with _ | rows
      · rcases hpage : st.skillsPage d ref.page with _ | _ | _ | rows <;>
          simp only [loadObj]
        · have hrows : pageRowsOrEmpty st d ref.page = [] := by
            simp [pageRowsOrEmpty, hpage]
          have hcoh' : ∀ pr ∈ ((ref.page, ([] : List SnapshotSkillPageItem)) :: pageCache),
              pr.2 = pageRowsOrEmpty st d pr.1 := by
            intro pr hpr
            rcases List.mem_cons.mp hpr with hpr | hpr
            · subst hpr; exact hrows.symm
            · exact hcoh pr hpr
          simp only [Option.getD_none]
          rcases hrow : ([] : List SnapshotSkillPageItem)[ref.index]? with _ | raw
          · rw [ih _ hmal' hcoh']
            simp [fallbackResolveRow, hrows, hrow]
          · cases ref.index <;> cases hrow
        · have hrows : pageRowsOrEmpty st d ref.page = [] := by
            simp [pageRowsOrEmpty, hpage]
          have hcoh' : ∀ pr ∈ ((ref.page, ([] : List SnapshotSkillPageItem)) :: pageCache),
              pr.2 = pageRowsOrEmpty st d pr.1 := by
            intro pr hpr
            rcases List.mem_cons.mp hpr with hpr | hpr
            · subst hpr; exact hrows.symm
            · exact hcoh pr hpr
          simp only [Option.getD_none]
          rcases hrow : ([] : List SnapshotSkillPageItem)[ref.index]? with _ | raw
          · rw [ih _ hmal' hcoh']
            simp [fallbackResolveRow, hrows, hrow]
          · cases ref.index <;> cases hrow
        · exact absurd hpage (hmal (id, ref) (List.mem_cons_self ..))
        · have hrows : pageRowsOrEmpty st d ref.page = rows := by
            simp [pageRowsOrEmpty, hpage]
          have hcoh' : ∀ pr ∈ ((ref.page, rows) :: pageCache),
              pr.2 = pageRowsOrEmpty st d pr.1 := by
            intro pr hpr
            rcases List.mem_cons.mp hpr with hpr | hpr
            · subst hpr; exact hrows.symm
            · exact hcoh pr hpr
          simp only [Option.getD_some]
          rcases hrow : rows[ref.index]? with _ | raw <;>
            simp only [hrow]
          · rw [ih _ hmal' hcoh']
            simp [fallbackResolveRow, hrows, hrow]
          · rw [ih _ hmal' hcoh']
            simp [fallbackResolveRow, hrows, hrow, Except.map]
      · have hrows : rows = pageRowsOrEmpty st d ref.page :=
          hcoh (ref.page, rows) (lookup_mem hc)
        rcases hrow : rows[ref.index]? with _ | raw <;>
          simp only [hrow]
        · rw [ih _ hmal' hcoh]
          simp [fallbackResolveRow, ← hrows, hrow]
        · rw [ih _ hmal' hcoh]
          simp [fallbackResolveRow, ← hrows, hrow, Except.map]

/-- The lookup entries matching a query (line 1020). -/
def fallbackMatching (es : List (String × SnapshotSkillLookup)) (query : String) :
    List (String × SnapshotSkillLookup) :=
  es.filter fun e => jsIncludes (jsToLower e.1) query

/-- The matching entries in response order (lines 1021-1024). -/
def fallbackSorted (es : List (String × SnapshotSkillLookup)) (query sortParam : String) :
    List (String × SnapshotSkillLookup) :=
  (fallbackMatching es query).insertionSort (fallbackEntryLe sortParam)

/-- The page slice of the sorted matching entries (lines 1026-1027). -/
def fallbackSelected (es : List (String × SnapshotSkillLookup))
    (query sortParam : String) (page pageSize : Nat) :
    List (String × SnapshotSkillLookup) :=
  ((fallbackSorted es query sortParam).drop ((page - 1) * pageSize)).take pageSize

theorem length_filterMap_lt {α β : Type} (f : α → Option β) (l : List α) (a : α)
    (ha : a ∈ l) (hf : f a = none) : (l.filterMap f).length < l.length := by
  induction l with
  | nil => cases ha
  | cons x xs ih =>
      rcases List.mem_cons.mp ha with rfl | ha2
      · rw [List.filterMap_cons, hf]
        have := List.length_filterMap_le f xs
        simp only [List.length_cons]
        omega
      · rw [List.filterMap_cons]
        rcases hx : f x with _ | b
        · have := ih ha2
          simp only [List.length_cons]
          omega
        · have := ih ha2
          simp only [List.length_cons, List.length_cons]
          omega

/-- C10: in the lookup-fallback search path, the response carries
    exactly the rows that resolve (`filterMap` over the selected
    slice), its `total` is the number of all lookup entries matching
    the query regardless of row resolution, the items never exceed
    `page_size`, and a selected entry whose row is missing makes the
    items strictly fewer than the selected entries. -/
theorem search_fallback_total_and_omission :
    ∀ (st : Store) (d query sortParam : String) (page pageSize : Nat)
      (lkp : SnapshotSkillLookupDocument) (es : List (String × SnapshotSkillLookup)),
      st.skillLookup d = .val lkp →
      lkp.entries = some es →
      st.skillsManifest d ≠ .malformed →
      (∀ e ∈ es, st.skillsPage d e.2.page ≠ .malformed) →
      searchFallback st d query sortParam page pageSize =
        .ok (.fallback
          { items := (fallbackSelected es query sortParam page pageSize).filterMap
              (fallbackResolveRow st d (manifestPageSizeOrDefault st d))
            page := page
            page_size := pageSize
            total := (fallbackSorted es query sortParam).length
            snapshot_date := d })
      ∧ (fallbackSorted es query sortParam).length = (fallbackMatching es query).length
      ∧ ((fallbackSelected es query sortParam page pageSize).filterMap
          (fallbackResolveRow st d (manifestPageSizeOrDefault st d))).length ≤ pageSize
      ∧ (∀ e ∈ fallbackSelected es query sortParam page pageSize,
          fallbackResolveRow st d (manifestPageSizeOrDefault st d) e = none →
          ((fallbackSelected es query sortParam page pageSize).filterMap
            (fallbackResolveRow st d (manifestPageSizeOrDefault st d))).length <
            (fallbackSelected es query sortParam page pageSize).length) := by
  intro st d query sortParam page pageSize lkp es hlkp hes hsm hpages
  have hsel : ∀ e ∈ fallbackSelected es query sortParam page pageSize,
      st.skillsPage d e.2.page ≠ .malformed := by
    intro e he
    apply hpages
    have h1 : e ∈ (fallbackSorted es query sortParam).drop ((page - 1) * pageSize) :=
      List.take_subset _ _ he
    have h2 : e ∈ fallbackSorted es query sortParam := List.drop_subset _ _ h1
    have h3 : e ∈ fallbackMatching es query :=
      ((List.perm_insertionSort (fallbackEntryLe sortParam) _).mem_iff).mp h2
    have h4 : e ∈ es.filter (fun e => jsIncludes (jsToLower e.1) query) := h3
    exact List.filter_subset' es h4
  have hloop := searchFallbackLoop_filterMap st d (manifestPageSizeOrDefault st d)
    (fallbackSelected es query sortParam page pageSize) [] hsel
    (by intro pr hpr; cases hpr)
  refine ⟨?_, ?_, ?_, ?_⟩
  · simp only [fallbackSelected, fallbackSorted, fallbackMatching] at hloop ⊢
    rcases hm : st.skillsManifest d with _ | _ | _ | sm
    · have hmps : manifestPageSizeOrDefault st d = 200 := by
        simp [manifestPageSizeOrDefault, hm]
      rw [hmps] at hloop ⊢
      simp only [searchFallback, hlkp, loadObj, hes, hm, Option.none_bind,
        Option.getD_none]
      rw [hloop]
    · have hmps : manifestPageSizeOrDefault st d = 200 := by
        simp [manifestPageSizeOrDefault, hm]
      rw [hmps] at hloop ⊢
      simp only [searchFallback, hlkp, loadObj, hes, hm, Option.none_bind,
        Option.getD_none]
      rw [hloop]
    · exact absurd hm hsm
    · have hmps : manifestPageSizeOrDefault st d = sm.page_size.getD 200 := by
        simp [manifestPageSizeOrDefault, hm]
      rw [hmps] at hloop ⊢
      simp only [searchFallback, hlkp, loadObj, hes, hm, Option.some_bind]
      rw [hloop]
  · exact (List.perm_insertionSort (fallbackEntryLe sortParam) _).length_eq
  · exact le_trans (List.length_filterMap_le _ _) (List.length_take_le _ _)
  · intro e he hnone
    exact length_filterMap_lt _ _ e he hnone

def lkpC10 : SnapshotSkillLookupDocument :=
  { snapshot_date := some "2025-01-15"
    total_entries := some 2
    entries := some [("o/r/alpha", ⟨1, 0⟩), ("o/r/beta", ⟨1, 5⟩)] }

def storeC10 : Store :=
  { latestManifest := .absent
    latestSnapshot := .absent
    statsSummary := fun _ => .absent
    skillsManifest := fun _ => .absent
    skillsPage := fun d p => if d = "2025-01-15" ∧ p = 1 then .val [rowC4b] else .absent
    skillLookup := fun d => if d = "2025-01-15" then .val lkpC10 else .absent
    searchIndex := fun _ => .absent }

/-- Closed instance of C10: two lookup entries match the query, one
    resolves to a row and one points past the end of its page; the
    response has one item yet `total` 2, strictly fewer items than
    `min(page_size, total - (page-1)*page_size) = 2`. -/
theorem search_fallback_total_and_omission_witness :
    searchFallback storeC10 "2025-01-15" "o/r" "installs" 1 12 =
      .ok (.fallback
        { items := [
            { id := "o/r/alpha"
              skill_id := "alpha"
              owner := "o"
              repo := "r"
              name := "Alpha Tool"
              canonical_url := "https://skills.sh/o/r/alpha"
              total_installs := some 100
              weekly_installs := none
              rank_at_fetch := some 1
              description := none
              platform_installs := none }]
          page := 1
          page_size := 12
          total := 2
          snapshot_date := "2025-01-15" })
    ∧ (1 : Nat) < min 12 (2 - (1 - 1) * 12) := by
  have h := search_fallback_total_and_omission storeC10 "2025-01-15" "o/r" "installs"
    1 12 lkpC10 [("o/r/alpha", ⟨1, 0⟩), ("o/r/beta", ⟨1, 5⟩)]
    (by decide) rfl (by decide) (by decide)
  refine ⟨?_, by decide⟩
  rw [h.1]
  decide

end Skillsight
